import Mathlib

/-!
Verification development for the zonal-statistics pipeline of
`src/rasterstats/main.py` (`gen_zonal_stats` and its helpers).

Shallow embedding conventions:
* raster cell values are rationals (`ℚ`), standing for the floating-point
  values of the source; all source arithmetic used by the claims is exact
  on the inputs considered;
* Python dicts become association lists with in-place overwrite (`dset`);
* Python exceptions become `Except` / explicit error outcomes;
* `MemoryError` possibilities of the external collaborators (raster window
  read, rasterizers) and of the in-loop numpy allocations are modelled by an
  environment `Env` that says, per geometry, whether each fallible step
  succeeds and with what result;
* collaborators that live outside `src/` (`check_stats`, `read_features`,
  `rasterize_geom`, `rasterize_pctcover`, `boxify_points`,
  `remap_categories`, `key_assoc_val`, `get_percentile`) are modelled from
  the spec where their behaviour matters, as marked in their doc comments.
-/

namespace ZonalStats

abbrev Q := ℚ

/-- Geometry kinds, a closed variant per spec §9 (shapely `geom.type`). -/
inductive GeomType where
  | point | multiPoint | lineString | multiLineString | polygon | multiPolygon
  deriving DecidableEq, Repr

/-- Embeds the Python test `'Point' in geom.type`: the substring `"Point"`
occurs exactly in the type names `Point` and `MultiPoint`. -/
def GeomType.isPointKind : GeomType → Bool
  | .point => true
  | .multiPoint => true
  | _ => false

/-- A geometry: its kind plus an identity token standing for its
coordinates/bounds (the numeric content of the shape is only ever passed to
the external collaborators, which the environment models). -/
structure Geom where
  gtype : GeomType
  tok : Nat
  deriving DecidableEq, Repr

/-- A raster window (`fsrc` in the source): cell values in row-major order,
an affine-transform token, the nodata sentinel, and the shape. -/
structure Window where
  rows : Nat
  cols : Nat
  data : List Q
  nodata : Option Q
  affine : Nat
  deriving DecidableEq, Repr

/-- The boolean coverage array produced by `rasterize_geom` (`rv_array`). -/
structure RVArray where
  rows : Nat
  cols : Nat
  data : List Bool
  deriving DecidableEq, Repr

/-- The fractional-coverage array produced by `rasterize_pctcover`
(`pctcover`). -/
structure PC where
  rows : Nat
  cols : Nat
  data : List Q
  deriving DecidableEq, Repr

/-- A numpy masked array (`masked`): data plus mask; `mask = true` means the
cell is excluded. -/
structure Masked where
  rows : Nat
  cols : Nat
  data : List Q
  mask : List Bool
  deriving DecidableEq, Repr

/-- Keys of the Python dicts used by the pipeline.  String keys cover the
statistic names, caller-supplied category labels and custom-stat names
(these share one string namespace, exactly as in Python); `num` covers the
numeric keys of a categorical histogram (a Python float key never equals a
string key); `pct` stands for the string `percentile_N` with `N` rendered
from the rational; `pre` stands for the string concatenation performed by
the prefixing step. -/
inductive Key where
  | str (s : String)
  | num (q : Q)
  | pct (q : Q)
  | pre (p : String) (k : Key)
  deriving DecidableEq, Repr

/-- Values stored in feature-stats / properties dicts.  `vsqrt q` is the
exact representation of the float `sqrt q` (used only by `std`); `varr`,
`vaffine`, `vnodata` are the `mini_raster_*` payloads; `vprop` stands for an
arbitrary pre-existing property value of the input feature. -/
inductive Val where
  | vnone
  | vfloat (q : Q)
  | vint (n : ℤ)
  | vsqrt (q : Q)
  | varr (m : Masked)
  | vaffine (a : Nat)
  | vnodata (n : Option Q)
  | vprop (t : Nat)
  deriving DecidableEq, Repr

/-- A Python dict as an association list (insertion-ordered, no duplicate
keys as long as it is only built with `dset`). -/
abbrev Dict := List (Key × Val)

/-- `d[k] = v`: overwrite in place if the key is present, else append. -/
def dset (d : Dict) (k : Key) (v : Val) : Dict :=
  match d with
  | [] => [(k, v)]
  | (k', v') :: rest => if k' = k then (k, v) :: rest else (k', v') :: dset rest k v

/-- `d.get(k)`. -/
def dget (d : Dict) (k : Key) : Option Val :=
  match d with
  | [] => none
  | (k', v') :: rest => if k' = k then some v' else dget rest k

instance {e a : Type} [DecidableEq e] [DecidableEq a] :
    DecidableEq (Except e a) := fun x y =>
  match x, y with
  | .error x, .error y =>
    if h : x = y then isTrue (by rw [h])
    else isFalse (fun hc => h (Except.error.inj hc))
  | .error _, .ok _ => isFalse Except.noConfusion
  | .ok _, .error _ => isFalse Except.noConfusion
  | .ok x, .ok y =>
    if h : x = y then isTrue (by rw [h])
    else isFalse (fun hc => h (Except.ok.inj hc))

/-! ### Numeric helpers (numpy reductions, modelled exactly over ℚ) -/

/-- Insertion of one element into a sorted list. -/
def insertQ (x : Q) : List Q → List Q
  | [] => [x]
  | y :: ys => if x ≤ y then x :: y :: ys else y :: insertQ x ys

/-- Ascending sort (used for `np.unique`, `np.median`, `np.percentile`). -/
def sortQ (l : List Q) : List Q := l.foldr insertQ []

def qsum (l : List Q) : Q := l.foldl (· + ·) 0

/-- `arr.min()` on a nonempty array (0 for the empty array, never used
there). -/
def fmin : List Q → Q
  | [] => 0
  | x :: xs => xs.foldl min x

/-- `arr.max()` on a nonempty array. -/
def fmax : List Q → Q
  | [] => 0
  | x :: xs => xs.foldl max x

/-- `arr.mean()`. -/
def fmean (l : List Q) : Q := qsum l / (l.length : Q)

/-- Population variance, `arr.std() ^ 2`; `std` itself is stored as the
exact value `Val.vsqrt` of this. -/
def fvariance (l : List Q) : Q :=
  qsum (l.map (fun v => (v - fmean l) ^ 2)) / (l.length : Q)

/-- `np.percentile(arr, q)` with the default linear interpolation. -/
def npPercentile (l : List Q) (q : Q) : Q :=
  let s := sortQ l
  let n := s.length
  if n = 0 then 0
  else
    let h : Q := ((n : Q) - 1) * q / 100
    let lo : Nat := h.floor.toNat
    let a := s.getD lo 0
    let b := s.getD (lo + 1) a
    a + (h - (lo : Q)) * (b - a)

/-- `np.median(arr)` equals the 50th linear-interpolation percentile. -/
def npMedian (l : List Q) : Q := npPercentile l 50

/-- `np.unique(compressed, return_counts=True)`: the sorted distinct values
paired with their multiplicities (`pixel_count` in the source, as the list
of items of the Python dict, in key order). -/
def histogram (l : List Q) : List (Q × Nat) :=
  ((sortQ l).dedup).map (fun v => (v, l.count v))

/-- `dict(pixel_count)` with numeric keys and integer counts. -/
def histDict (h : List (Q × Nat)) : Dict :=
  h.foldl (fun d vc => dset d (.num vc.1) (.vint (vc.2 : ℤ))) []

/-- Modelled from the spec: `key_assoc_val(pixel_count, max)` returns the
histogram key with the highest count, ties broken by whichever key the scan
over the histogram encounters first. `better c best = true` means the new
count `c` displaces the current best. -/
def keyAssocVal (better : Nat → Nat → Bool) : List (Q × Nat) → Q
  | [] => 0
  | (k, c) :: rest =>
    (rest.foldl (fun best kc => if better kc.2 best.2 then kc else best) (k, c)).1

/-- `float((featmasked == fsrc_nodata).sum())` of line 189: the number of
covered cells whose value equals the nodata sentinel (0 when the sentinel is
absent, matching the degenerate numpy comparison with `None`). -/
def nodataCount (w : Window) (rv : RVArray) : Q :=
  match w.nodata with
  | none => 0
  | some nd =>
    (((w.data.zip rv.data).filter (fun p => p.2 && decide (p.1 = nd))).length : Q)

/-- Lines 195-199: mask a cell iff its value equals nodata or it is not
covered by the rasterized geometry. -/
def buildMasked (w : Window) (rv : RVArray) : Masked :=
  { rows := w.rows, cols := w.cols, data := w.data,
    mask := (w.data.zip rv.data).map
      (fun p =>
        (match w.nodata with
         | some nd => decide (p.1 = nd)
         | none => false) || !p.2) }

/-- `masked.compressed()`: the surviving (unmasked) values, in order. -/
def compressM (m : Masked) : List Q :=
  (m.data.zip m.mask).filterMap (fun p => if p.2 then none else some p.1)

/-- `np.sum(~masked.mask * pctcover, axis=0)` summed again over the
remaining axis: the total coverage weight on surviving cells. -/
def wdenom (m : Masked) (pc : PC) : Q :=
  ((m.mask.zip pc.data).map (fun p => if p.1 then 0 else p.2)).foldl (· + ·) 0

/-- `np.sum(masked * pctcover)`: coverage-weighted sum over surviving cells
(masked entries do not contribute to a masked-array sum). -/
def wsum (m : Masked) (pc : PC) : Q :=
  (((m.data.zip m.mask).zip pc.data).map
    (fun p => if p.1.2 then 0 else p.1.1 * p.2)).foldl (· + ·) 0

/-- Line 245: the weighted mean (division by zero degrades to 0 in ℚ where
numpy would produce a non-finite float; no claim depends on that case). -/
def wmean (m : Masked) (pc : PC) : Q := wsum m pc / wdenom m pc

/-! ### Statistic names and configuration validation -/

/-- The statistic names understood by the pipeline.  `percentile q` stands
for the string `percentile_N`; `other s` stands for any other
caller-supplied name (rejected by validation). -/
inductive Stat where
  | count | sum | mean | min | max | std | median
  | majority | minority | unique | range | nodata
  | weighted_mean | weighted_sum | weighted_count
  | percentile (q : Q)
  | other (s : String)
  deriving DecidableEq, Repr

/-- The dict key under which a statistic's value is stored. -/
def Stat.key : Stat → Key
  | .count => .str "count"
  | .sum => .str "sum"
  | .mean => .str "mean"
  | .min => .str "min"
  | .max => .str "max"
  | .std => .str "std"
  | .median => .str "median"
  | .majority => .str "majority"
  | .minority => .str "minority"
  | .unique => .str "unique"
  | .range => .str "range"
  | .nodata => .str "nodata"
  | .weighted_mean => .str "weighted_mean"
  | .weighted_sum => .str "weighted_sum"
  | .weighted_count => .str "weighted_count"
  | .percentile q => .pct q
  | .other s => .str s

/-- Statistics that force the per-value histogram. -/
def Stat.isHist : Stat → Bool
  | .majority | .minority | .unique => true
  | _ => false

/-- Statistics that force coverage weighting. -/
def Stat.isWeighted : Stat → Bool
  | .weighted_mean | .weighted_sum | .weighted_count => true
  | _ => false

/-- Errors of the embedded pipeline.  `invalidStatistic` /
`invalidPercentileSpec` are the eager validation failures;
`assertionError` is the line-180 shape assertion; `nameError` is a Python
reference to the unbound `pctcover`; `valueError` is a numpy broadcast
shape mismatch; `typeError` a non-numeric operand; `keyError` a missing
`'properties'` key; `custom msg` an exception escaping a caller-supplied
statistic function. -/
inductive Err where
  | invalidStatistic (s : String)
  | invalidPercentileSpec
  | assertionError
  | nameError
  | valueError
  | typeError
  | keyError
  | custom (msg : String)
  deriving DecidableEq, Repr

/-- Modelled from the spec: the documented default statistic subset used by
`check_stats` (utils.py, not under src/). -/
def DEFAULT_STATS : List Stat := [.count, .min, .max, .mean]

/-- The validation failure of a single statistic name, if any: an unknown
name, or a percentile outside [0, 100]. -/
def statErr : Stat → Option Err
  | .other name => some (.invalidStatistic name)
  | .percentile q => if 0 ≤ q ∧ q ≤ 100 then none else some .invalidPercentileSpec
  | _ => none

/-- The first validation failure in a statistics selection. -/
def firstInvalid : List Stat → Option Err
  | [] => none
  | s :: rest =>
    match statErr s with
    | some e => some e
    | none => firstInvalid rest

/-- Modelled from the spec: `check_stats` (utils.py, not under src/).
Resolves the selection (defaulting when absent), validates every name
eagerly, and returns the resolved list together with the
needs-per-value-histogram flag (categorical mode or
majority/minority/unique requested) and the needs-coverage-weights flag
(any weighted statistic requested). -/
def check_stats (stats? : Option (List Stat)) (categorical : Bool) :
    Except Err (List Stat × Bool × Bool) :=
  let stats := stats?.getD DEFAULT_STATS
  match firstInvalid stats with
  | some e => .error e
  | none =>
    let run_count := categorical || stats.any Stat.isHist
    let weights := stats.any Stat.isWeighted
    .ok (stats, run_count, weights)

/-! ### Features, environment and configuration -/

/-- A vector feature: geometry plus the optional `'properties'` mapping.
Modelled from the spec: `read_features` (io.py, not under src/) passes each
feature through unchanged, so the run consumes the given list directly. -/
structure Feature where
  geometry : Geom
  properties : Option Dict
  deriving DecidableEq, Repr

/-- The external collaborators and the memory behaviour of the fallible
steps, per geometry.  `read` is `rast.read(bounds=...)`; `rasterize_geom`
and `rasterize_pctcover` are the rasterizers of utils.py (not under src/,
so their outputs are environment-chosen); `boxify_points` is the point
footprint expander; an `Except.error` of the first three stands for
`MemoryError`, as do the `maskFail` / `compressFail` flags for the two
in-loop numpy allocations (lines 195 and 212). -/
structure Env where
  read : Geom → Except Unit Window
  rasterize_geom : Geom → Window → Bool → Except Unit RVArray
  rasterize_pctcover : Geom → Nat → Nat × Nat → Except Unit PC
  boxify_points : Geom → Geom
  maskFail : Geom → Bool
  compressFail : Geom → Bool

/-- The keyword arguments of `gen_zonal_stats` that the claims exercise
(`pfx` is the source's `prefix` argument). -/
structure Cfg where
  stats : Option (List Stat) := none
  all_touched : Bool := false
  categorical : Bool := false
  category_map : Option (List (Q × String)) := none
  add_stats : Option (List (String × (Masked → Except String Val))) := none
  raster_out : Bool := false
  pfx : Option String := none
  save_properties : Bool := false
  geojson_out : Bool := false

/-- One yielded item: a standalone stats dict, a GeoJSON-like feature, or
the feature's properties dict (lines 310-314). -/
inductive Record where
  | rstats (d : Dict)
  | rfeat (f : Feature)
  | rprops (d : Dict)
  deriving DecidableEq, Repr

/-- The loop variables that persist across features: the `weights` flag
(line 125, re-assigned at line 157) and the binding status of the Python
variable `pctcover` (assigned at line 238, never cleared). -/
structure LoopState where
  weights : Bool
  pctcover : Option PC
  deriving DecidableEq, Repr

/-- Outcome of one feature's iteration: skipped with its logged properties
(`continue` after a `MemoryError`), a yielded record together with the
feature's (possibly mutated) final value, or a fatal error that aborts the
generator. -/
inductive FRes where
  | skipped (log : Dict) (st : LoopState)
  | yielded (rec : Record) (feat : Feature) (st : LoopState)
  | fatal (e : Err)
  deriving DecidableEq, Repr

/-- One feature's outcome plus the raster accesses and `rasterize_geom`
invocations (with their all-touched flag) it performed. -/
structure FStep where
  res : FRes
  reads : List Geom
  rasts : List (Geom × Bool)
  deriving DecidableEq, Repr

/-- The `except MemoryError: print feat['properties']; continue` pattern
(lines 170-173, 182-185, 201-204, 214-217, 239-242): log the feature's
original properties and move on; a feature without a `'properties'` key
makes the logging line itself raise `KeyError`. -/
def skipOut (feat : Feature) (st : LoopState) (reads : List Geom)
    (rasts : List (Geom × Bool)) : FStep :=
  match feat.properties with
  | some p => ⟨.skipped p st, reads, rasts⟩
  | none => ⟨.fatal .keyError, reads, rasts⟩

/-! ### The per-feature statistic computation (lines 227-284) -/

def lookupQ (q : Q) : List (Q × String) → Option String
  | [] => none
  | (a, b) :: rest => if a = q then some b else lookupQ q rest

/-- Modelled from the spec: the key rewriting of `remap_categories`
(utils.py, not under src/): a numeric histogram key is replaced by its
caller-supplied label when the map has one; unmapped values retain their
raw numeric key. -/
def remapKey (cmap : List (Q × String)) : Key → Key
  | .num q =>
    match lookupQ q cmap with
    | some lbl => .str lbl
    | none => .num q
  | k => k

/-- Modelled from the spec: `remap_categories` (utils.py, not under src/). -/
def remap_categories (cmap : List (Q × String)) (d : Dict) : Dict :=
  d.foldl (fun acc kv => dset acc (remapKey cmap kv.1) kv.2) []

/-- Referencing the Python variable `pctcover` raises `NameError` when it
was never assigned (neither in this iteration nor a previous one). -/
def needPc : Option PC → Except Err PC
  | some pc => .ok pc
  | none => .error .nameError

/-- A numeric operand read back out of the stats dict (line 272/276); a
non-numeric value would make the subtraction raise `TypeError`. -/
def valNum : Val → Except Err Q
  | .vfloat q => .ok q
  | .vint n => .ok (n : Q)
  | _ => .error .typeError

/-- Lines 227-234: in categorical mode the whole dict is replaced by the
(possibly remapped) histogram, discarding any earlier `nodata` entry. -/
def catStats (run_count categorical : Bool)
    (category_map : Option (List (Q × String)))
    (pixel_count : List (Q × Nat)) (fs1 : Dict) : Dict :=
  if run_count && categorical then
    match category_map with
    | some cmap => remap_categories cmap (histDict pixel_count)
    | none => histDict pixel_count
  else fs1

/-- Lines 244-249: the three weighted statistics.  Each references the
Python variable `pctcover` (unbound → `NameError`); `weighted_mean` and
`weighted_sum` multiply it elementwise with the masked window (shape
mismatch → broadcast `ValueError`); `weighted_count` sums the whole
coverage array. -/
def weightedStats (stats : List Stat) (masked : Masked) (pct : Option PC)
    (fs : Dict) : Except Err Dict := do
  let fs ←
    if Stat.weighted_mean ∈ stats then do
      let pc ← needPc pct
      if (pc.rows, pc.cols) = (masked.rows, masked.cols) then
        pure (dset fs (.str "weighted_mean") (.vfloat (wmean masked pc)))
      else throw .valueError
    else pure fs
  let fs ←
    if Stat.weighted_count ∈ stats then do
      let pc ← needPc pct
      pure (dset fs (.str "weighted_count") (.vfloat (qsum pc.data)))
    else pure fs
  let fs ←
    if Stat.weighted_sum ∈ stats then do
      let pc ← needPc pct
      if (pc.rows, pc.cols) = (masked.rows, masked.cols) then
        pure (dset fs (.str "weighted_sum") (.vfloat (wsum masked pc)))
      else throw .valueError
    else pure fs
  pure fs

/-- Lines 250-269: the unconditional scalar statistics, in source order. -/
def scalarStats (stats : List Stat) (compressed : List Q)
    (pixel_count : List (Q × Nat)) (fs : Dict) : Dict :=
  let fs := if Stat.mean ∈ stats then dset fs (.str "mean") (.vfloat (fmean compressed)) else fs
  let fs := if Stat.count ∈ stats then dset fs (.str "count") (.vint (compressed.length : ℤ)) else fs
  let fs := if Stat.sum ∈ stats then dset fs (.str "sum") (.vfloat (qsum compressed)) else fs
  let fs := if Stat.min ∈ stats then dset fs (.str "min") (.vfloat (fmin compressed)) else fs
  let fs := if Stat.max ∈ stats then dset fs (.str "max") (.vfloat (fmax compressed)) else fs
  let fs := if Stat.std ∈ stats then dset fs (.str "std") (.vsqrt (fvariance compressed)) else fs
  let fs := if Stat.median ∈ stats then dset fs (.str "median") (.vfloat (npMedian compressed)) else fs
  let fs := if Stat.majority ∈ stats then
      dset fs (.str "majority") (.vfloat (keyAssocVal (fun c b => decide (b < c)) pixel_count))
    else fs
  let fs := if Stat.minority ∈ stats then
      dset fs (.str "minority") (.vfloat (keyAssocVal (fun c b => decide (c < b)) pixel_count))
    else fs
  let fs := if Stat.unique ∈ stats then dset fs (.str "unique") (.vint (pixel_count.length : ℤ)) else fs
  fs

/-- Lines 270-279: `range` reuses the dict entries under `'min'`/`'max'`
when present (the `try/except KeyError` idiom) and computes the extremes
fresh otherwise. -/
def rangeStat (stats : List Stat) (compressed : List Q) (fs : Dict) :
    Except Err Dict :=
  if Stat.range ∈ stats then do
    let rmin ←
      match dget fs (.str "min") with
      | some v => valNum v
      | none => pure (fmin compressed)
    let rmax ←
      match dget fs (.str "max") with
      | some v => valNum v
      | none => pure (fmax compressed)
    pure (dset fs (.str "range") (.vfloat (rmax - rmin)))
  else pure fs

/-- Lines 281-284: one percentile entry per `percentile_N` selection. -/
def percStats (stats : List Stat) (compressed : List Q) (fs : Dict) : Dict :=
  stats.foldl (fun d s =>
    match s with
    | .percentile q => dset d (.pct q) (.vfloat (npPercentile compressed q))
    | _ => d) fs

/-- Lines 227-284: the statistics of a feature with surviving values.
`fs1` is the dict as of line 190 (the eager `nodata` count, if requested).
The `pctcover` acquisition of lines 236-242 happens in `processFeature`;
it commutes with the histogram block, which does not observe it. -/
def popStats (stats : List Stat) (run_count categorical : Bool)
    (category_map : Option (List (Q × String)))
    (masked : Masked) (compressed : List Q) (pct : Option PC) (fs1 : Dict) :
    Except Err Dict := do
  let pixel_count := histogram compressed
  let fs := catStats run_count categorical category_map pixel_count fs1
  let fs ← weightedStats stats masked pct fs
  let fs := scalarStats stats compressed pixel_count fs
  let fs ← rangeStat stats compressed fs
  pure (percStats stats compressed fs)

/-- Lines 220-224: the empty-value case replaces the whole dict with one
`None` per requested statistic, then special-cases `count` to `0`. -/
def emptyStats (stats : List Stat) : Dict :=
  let d := stats.foldl (fun d s => dset d s.key .vnone) []
  if Stat.count ∈ stats then dset d (.str "count") (.vint 0) else d

/-! ### Finalization (lines 287-314) -/

/-- Lines 287-289: each caller-supplied statistic function receives the
full masked array and its scalar result is stored under the supplied name;
an exception propagates. -/
def applyAddStats (add? : Option (List (String × (Masked → Except String Val))))
    (masked : Masked) (fs : Dict) : Except Err Dict :=
  match add? with
  | none => .ok fs
  | some l =>
    l.foldlM (fun d nf =>
      match nf.2 masked with
      | .ok v => .ok (dset d (.str nf.1) v)
      | .error msg => .error (.custom msg)) fs

/-- Lines 296-301: rewrite every key as `prefix + key`. -/
def applyPfx (pfx : Option String) (fs : Dict) : Dict :=
  match pfx with
  | none => fs
  | some p => fs.foldl (fun d kv => dset d (.pre p kv.1) kv.2) []

/-- Lines 303-307: write every stat into `feat['properties']`, creating
the mapping first when the feature lacks one (per iteration of the loop,
hence not at all when there is nothing to write). -/
def mergeProps (ps : Option Dict) (fs : Dict) : Option Dict :=
  fs.foldl (fun acc kv => some (dset (acc.getD []) kv.1 kv.2)) ps

/-- Lines 303-314: output shaping.  With `geojson_out` the mutated feature
itself is yielded; with `save_properties` its (mutated) properties mapping
is; otherwise the standalone stats dict is yielded and the feature is left
untouched. -/
def emitResult (cfg : Cfg) (feat : Feature) (fs : Dict) (st : LoopState) : FRes :=
  if cfg.geojson_out || cfg.save_properties then
    let props := mergeProps feat.properties fs
    let feat' : Feature := { feat with properties := props }
    if cfg.geojson_out then .yielded (.rfeat feat') feat' st
    else
      match props with
      | some p => .yielded (.rprops p) feat' st
      | none => .fatal .keyError
  else .yielded (.rstats fs) feat st

/-- Lines 287-314: custom statistics, optional mini-raster attachment, key
prefixing, then output shaping. -/
def finalize (cfg : Cfg) (feat : Feature) (masked : Masked) (aff : Nat)
    (nd : Option Q) (fs : Dict) (st : LoopState) (reads : List Geom)
    (rasts : List (Geom × Bool)) : FStep :=
  match applyAddStats cfg.add_stats masked fs with
  | .error e => ⟨.fatal e, reads, rasts⟩
  | .ok fs2 =>
    let fs3 :=
      if cfg.raster_out then
        dset (dset (dset fs2 (.str "mini_raster_array") (.varr masked))
            (.str "mini_raster_affine") (.vaffine aff))
          (.str "mini_raster_nodata") (.vnodata nd)
      else fs2
    let fs4 := applyPfx cfg.pfx fs3
    ⟨emitResult cfg feat fs4 st, reads, rasts⟩

/-! ### The per-feature pipeline and the generator loop (lines 150-314) -/

/-- Lines 156-158: the geometry actually rasterized — point-kind
geometries are expanded to a pixel-aligned box first. -/
def effGeom (env : Env) (feat : Feature) : Geom :=
  if feat.geometry.gtype.isPointKind then env.boxify_points feat.geometry
  else feat.geometry

/-- Lines 156-157: the `weights` flag in effect for this feature — cleared
(persistently, it is a loop variable) for point-kind geometries. -/
def effW (st : LoopState) (feat : Feature) : Bool :=
  if feat.geometry.gtype.isPointKind then false else st.weights

/-- One iteration of the feature loop (lines 152-314). -/
def processFeature (env : Env) (cfg : Cfg) (stats : List Stat)
    (run_count : Bool) (all_touched : Bool) (st : LoopState)
    (feat : Feature) : FStep :=
  let geom := effGeom env feat
  let w' := effW st feat
  match env.read geom with
  | .error _ => skipOut feat ⟨w', st.pctcover⟩ [geom] []
  | .ok fsrc =>
    match env.rasterize_geom geom fsrc all_touched with
    | .error _ => skipOut feat ⟨w', st.pctcover⟩ [geom] [(geom, all_touched)]
    | .ok rv =>
      if (rv.rows, rv.cols) = (fsrc.rows, fsrc.cols) then
        let fs1 : Dict :=
          if Stat.nodata ∈ stats then
            dset [] (.str "nodata") (.vfloat (nodataCount fsrc rv))
          else []
        if env.maskFail geom then
          skipOut feat ⟨w', st.pctcover⟩ [geom] [(geom, all_touched)]
        else
          let masked := buildMasked fsrc rv
          if env.compressFail geom then
            skipOut feat ⟨w', st.pctcover⟩ [geom] [(geom, all_touched)]
          else
            let compressed := compressM masked
            if compressed.isEmpty then
              finalize cfg feat masked fsrc.affine fsrc.nodata
                (emptyStats stats) ⟨w', st.pctcover⟩ [geom] [(geom, all_touched)]
            else
              match (if w' then
                  (env.rasterize_pctcover geom fsrc.affine (fsrc.rows, fsrc.cols)).map some
                else .ok st.pctcover) with
              | .error _ => skipOut feat ⟨w', st.pctcover⟩ [geom] [(geom, all_touched)]
              | .ok pct' =>
                match popStats stats run_count cfg.categorical cfg.category_map
                    masked compressed pct' fs1 with
                | .error e => ⟨.fatal e, [geom], [(geom, all_touched)]⟩
                | .ok fs =>
                  finalize cfg feat masked fsrc.affine fsrc.nodata fs
                    ⟨w', pct'⟩ [geom] [(geom, all_touched)]
      else ⟨.fatal .assertionError, [geom], [(geom, all_touched)]⟩

/-- The output of the feature loop: yielded records, skip logs, the
terminating error if one aborted the generator, the final values of the
input features (mutations visible to the caller), and the traces of raster
reads and `rasterize_geom` invocations. -/
structure LoopOut where
  out : List Record
  logs : List Dict
  err : Option Err
  feats : List Feature
  reads : List Geom
  rasts : List (Geom × Bool)
  deriving DecidableEq, Repr

/-- The feature loop (lines 152-314): on a fatal error the remaining
features keep their original values and are never processed. -/
def runFeatures (env : Env) (cfg : Cfg) (stats : List Stat)
    (run_count : Bool) (all_touched : Bool) :
    LoopState → List Feature → LoopOut
  | _, [] => ⟨[], [], none, [], [], []⟩
  | st, f :: rest =>
    let step := processFeature env cfg stats run_count all_touched st f
    match step.res with
    | .skipped p st' =>
      let r := runFeatures env cfg stats run_count all_touched st' rest
      ⟨r.out, p :: r.logs, r.err, f :: r.feats,
        step.reads ++ r.reads, step.rasts ++ r.rasts⟩
    | .yielded rec f' st' =>
      let r := runFeatures env cfg stats run_count all_touched st' rest
      ⟨rec :: r.out, r.logs, r.err, f' :: r.feats,
        step.reads ++ r.reads, step.rasts ++ r.rasts⟩
    | .fatal e => ⟨[], [], some e, f :: rest, step.reads, step.rasts⟩

/-- `gen_zonal_stats` output: `opened` records whether the raster dataset
was opened (line 150, reached only after validation succeeds). -/
structure RunOut where
  opened : Bool
  out : List Record
  logs : List Dict
  err : Option Err
  feats : List Feature
  reads : List Geom
  rasts : List (Geom × Bool)
  deriving DecidableEq, Repr

/-- Lines 125-314: validate eagerly, force all-touched when weights are
requested (lines 147-148), open the raster, and run the feature loop with
the initial loop state (`weights` from validation, `pctcover` unbound). -/
def gen_zonal_stats (env : Env) (cfg : Cfg) (features : List Feature) : RunOut :=
  match check_stats cfg.stats cfg.categorical with
  | .error e => ⟨false, [], [], some e, features, [], []⟩
  | .ok (stats, run_count, weights) =>
    let all_touched := if weights then true else cfg.all_touched
    let r := runFeatures env cfg stats run_count all_touched ⟨weights, none⟩ features
    ⟨true, r.out, r.logs, r.err, r.feats, r.reads, r.rasts⟩

/-- `zonal_stats` materializes the same sequence (line 28). -/
def zonal_stats (env : Env) (cfg : Cfg) (features : List Feature) : RunOut :=
  gen_zonal_stats env cfg features

/-- True iff this iteration reaches one of the five `except MemoryError`
handlers: window acquisition (line 170), rasterization (line 182), mask
construction (line 201), compression (line 214), or coverage-weight
rasterization (line 239).  Mirrors the control flow of `processFeature`. -/
def memSkipCause (env : Env) (all_touched : Bool) (st : LoopState)
    (feat : Feature) : Bool :=
  let geom := effGeom env feat
  let w' := effW st feat
  match env.read geom with
  | .error _ => true
  | .ok fsrc =>
    match env.rasterize_geom geom fsrc all_touched with
    | .error _ => true
    | .ok rv =>
      if (rv.rows, rv.cols) = (fsrc.rows, fsrc.cols) then
        if env.maskFail geom then true
        else if env.compressFail geom then true
        else if (compressM (buildMasked fsrc rv)).isEmpty then false
        else if w' then
          match env.rasterize_pctcover geom fsrc.affine (fsrc.rows, fsrc.cols) with
          | .error _ => true
          | .ok _ => false
        else false
      else false

/-- An invalid statistics selection: it names an unknown statistic or an
out-of-range percentile. -/
def invalidSelection (l : List Stat) : Prop :=
  (∃ nm, Stat.other nm ∈ l) ∨ ∃ q, Stat.percentile q ∈ l ∧ ¬(0 ≤ q ∧ q ≤ 100)

/-- The dict after writing every item of `fs` into `d`, in order (the loop
body of lines 304-307, once the properties mapping exists). -/
def mergeD (d : Dict) (fs : Dict) : Dict :=
  fs.foldl (fun d kv => dset d kv.1 kv.2) d

/-! ### Concrete fixtures for evidence theorems and witnesses -/

/-- A 1×3 window with values 1, 1, 3 and no nodata. -/
def win13 : Window := ⟨1, 3, [1, 1, 3], none, 7⟩

/-- A 1×2 window with values 5, 9 and nodata 9. -/
def win12 : Window := ⟨1, 2, [5, 9], some 9, 3⟩

/-- A 1×2 window entirely filled with its nodata value. -/
def winND : Window := ⟨1, 2, [9, 9], some 9, 3⟩

/-- An everywhere-true coverage array of the given shape. -/
def rvFull (r c : Nat) : RVArray := ⟨r, c, List.replicate (r * c) true⟩

/-- A coverage-weight array of ones of the given shape. -/
def pcOnes (r c : Nat) : PC := ⟨r, c, List.replicate (r * c) 1⟩

/-- Every read returns `win13`, rasterization covers the whole window,
coverage weights are all 1, nothing runs out of memory. -/
def envA : Env :=
  { read := fun _ => .ok win13,
    rasterize_geom := fun _ w _ => .ok (rvFull w.rows w.cols),
    rasterize_pctcover := fun _ _ sh => .ok (pcOnes sh.1 sh.2),
    boxify_points := fun g => ⟨.polygon, g.tok + 100⟩,
    maskFail := fun _ => false,
    compressFail := fun _ => false }

/-- Like `envA` but reading the window with a nodata cell. -/
def envB : Env := { envA with read := fun _ => .ok win12 }

/-- Like `envA` but reading the all-nodata window. -/
def envND : Env := { envA with read := fun _ => .ok winND }

/-- Like `envA` but the read of the geometry with token 1 exhausts
memory. -/
def envSkip : Env :=
  { envA with read := fun g => if g.tok = 1 then .error () else .ok win13 }

/-- Like `envA` but the rasterizer returns a 5×5 mask regardless of the
window shape. -/
def envBadShape : Env :=
  { envA with rasterize_geom := fun _ _ _ => .ok ⟨5, 5, List.replicate 25 true⟩ }

def featPoly : Feature := ⟨⟨.polygon, 1⟩, some [(.str "name", .vprop 5)]⟩

def featPoly2 : Feature := ⟨⟨.polygon, 9⟩, some []⟩

def featPoint : Feature := ⟨⟨.point, 2⟩, some []⟩

/-- The all-defaults configuration. -/
def cfg0 : Cfg := { }

/-- `stats=['weighted_mean', 'count']`. -/
def cfgWM : Cfg := { stats := some [.weighted_mean, .count] }

/-- A selection naming an unknown statistic. -/
def cfgBogus : Cfg := { stats := some [.other "bogus"] }

/-- GeoJSON output mode. -/
def cfgGeo : Cfg := { geojson_out := true }

/-- A custom statistic that counts the masked cells — it depends on the
mask, which only the full masked array carries. -/
def maskColumns : Masked → Except String Val :=
  fun m => .ok (.vint ((m.mask.filter id).length : ℤ))

/-- Custom statistics `{'masked_cells': maskColumns}`. -/
def cfgAddOk : Cfg := { add_stats := some [("masked_cells", maskColumns)] }

/-- `stats=['weighted_count', 'count']`. -/
def cfgWC : Cfg := { stats := some [.weighted_count, .count] }

/-- `stats=['range']`, categorical with the label `"min"` for value 1. -/
def cfgCat : Cfg :=
  { stats := some [.range], categorical := true,
    category_map := some [(1, "min")] }

/-! ### Helper notions and lemmas about the loop -/

@[simp] theorem dget_nil (k : Key) : dget [] k = none := rfl

theorem dget_dset (d : Dict) (k k' : Key) (v : Val) :
    dget (dset d k v) k' = if k' = k then some v else dget d k' := by
  induction d with
  | nil =>
    by_cases h : k' = k
    · subst h; simp [dset, dget]
    · have h' : ¬k = k' := fun hh => h hh.symm
      simp [dset, dget, h, h']
  | cons hd tl ih =>
    obtain ⟨hk, hv⟩ := hd
    by_cases h1 : hk = k
    · subst h1
      by_cases h2 : k' = hk
      · subst h2; simp [dset, dget]
      · have h2' : ¬hk = k' := fun hh => h2 hh.symm
        simp [dset, dget, h2, h2']
    · by_cases h2 : k' = k
      · subst h2
        have h3 : ¬hk = k' := h1
        simp [dset, dget, h1, h3, ih]
      · simp [dset, dget, h1, h2, ih]

@[simp] theorem dget_dset_same (d : Dict) (k : Key) (v : Val) :
    dget (dset d k v) k = some v := by simp [dget_dset]

theorem dget_dset_ne (d : Dict) {k k' : Key} (v : Val) (h : k' ≠ k) :
    dget (dset d k v) k' = dget d k' := by simp [dget_dset, h]


/-- A `MemoryError` at any of the five guarded steps, for a feature that
has a properties mapping, ends the iteration in the skip outcome carrying
exactly the feature's original properties; the loop state keeps the
(possibly point-cleared) weights flag and the old `pctcover` binding. -/
theorem processFeature_skipped_of_mem (env : Env) (cfg : Cfg)
    (stats : List Stat) (run_count all_touched : Bool) (st : LoopState)
    (feat : Feature) (p : Dict)
    (hp : feat.properties = some p)
    (hmem : memSkipCause env all_touched st feat = true) :
    (processFeature env cfg stats run_count all_touched st feat).res =
      .skipped p ⟨effW st feat, st.pctcover⟩ := by
  cases hread : env.read (effGeom env feat) with
  | error e => simp [processFeature, hread, skipOut, hp]
  | ok fsrc =>
    cases hrast : env.rasterize_geom (effGeom env feat) fsrc all_touched with
    | error e => simp [processFeature, hread, hrast, skipOut, hp]
    | ok rv =>
      by_cases hsh : (rv.rows, rv.cols) = (fsrc.rows, fsrc.cols)
      · by_cases hmf : env.maskFail (effGeom env feat)
        · simp [processFeature, hread, hrast, hsh, hmf, skipOut, hp]
        · by_cases hcf : env.compressFail (effGeom env feat)
          · simp [processFeature, hread, hrast, hsh, hmf, hcf, skipOut, hp]
          · by_cases hemp : (compressM (buildMasked fsrc rv)).isEmpty
            · simp [memSkipCause, hread, hrast, hsh, hmf, hcf, hemp] at hmem
            · by_cases hw : effW st feat
              · cases hpc : env.rasterize_pctcover (effGeom env feat) fsrc.affine
                    (fsrc.rows, fsrc.cols) with
                | error e =>
                  simp [processFeature, hread, hrast, hsh, hmf, hcf, hemp, hw,
                    hpc, Except.map, skipOut, hp]
                | ok pc =>
                  simp [memSkipCause, hread, hrast, hsh, hmf, hcf, hemp, hw,
                    hpc] at hmem
              · simp [memSkipCause, hread, hrast, hsh, hmf, hcf, hemp, hw] at hmem
      · simp [memSkipCause, hread, hrast, hsh] at hmem

/-- Unfolding the loop over a feature that gets skipped. -/
theorem runFeatures_cons_skipped (env : Env) (cfg : Cfg) (stats : List Stat)
    (run_count all_touched : Bool) (st st' : LoopState) (f : Feature)
    (p : Dict) (rest : List Feature)
    (h : (processFeature env cfg stats run_count all_touched st f).res =
      .skipped p st') :
    runFeatures env cfg stats run_count all_touched st (f :: rest) =
      { out := (runFeatures env cfg stats run_count all_touched st' rest).out,
        logs := p :: (runFeatures env cfg stats run_count all_touched st' rest).logs,
        err := (runFeatures env cfg stats run_count all_touched st' rest).err,
        feats := f :: (runFeatures env cfg stats run_count all_touched st' rest).feats,
        reads := (processFeature env cfg stats run_count all_touched st f).reads ++
          (runFeatures env cfg stats run_count all_touched st' rest).reads,
        rasts := (processFeature env cfg stats run_count all_touched st f).rasts ++
          (runFeatures env cfg stats run_count all_touched st' rest).rasts } := by
  simp only [runFeatures, h]

/-- Unfolding the loop over a feature that yields. -/
theorem runFeatures_cons_yielded (env : Env) (cfg : Cfg) (stats : List Stat)
    (run_count all_touched : Bool) (st st' : LoopState) (f f' : Feature)
    (rec : Record) (rest : List Feature)
    (h : (processFeature env cfg stats run_count all_touched st f).res =
      .yielded rec f' st') :
    runFeatures env cfg stats run_count all_touched st (f :: rest) =
      { out := rec :: (runFeatures env cfg stats run_count all_touched st' rest).out,
        logs := (runFeatures env cfg stats run_count all_touched st' rest).logs,
        err := (runFeatures env cfg stats run_count all_touched st' rest).err,
        feats := f' :: (runFeatures env cfg stats run_count all_touched st' rest).feats,
        reads := (processFeature env cfg stats run_count all_touched st f).reads ++
          (runFeatures env cfg stats run_count all_touched st' rest).reads,
        rasts := (processFeature env cfg stats run_count all_touched st f).rasts ++
          (runFeatures env cfg stats run_count all_touched st' rest).rasts } := by
  simp only [runFeatures, h]

/-- Unfolding the loop over a feature whose iteration raises a fatal
error: the generator stops, nothing is yielded or logged for this feature,
and the remaining features keep their original values. -/
theorem runFeatures_cons_fatal (env : Env) (cfg : Cfg) (stats : List Stat)
    (run_count all_touched : Bool) (st : LoopState) (f : Feature) (e : Err)
    (rest : List Feature)
    (h : (processFeature env cfg stats run_count all_touched st f).res =
      .fatal e) :
    runFeatures env cfg stats run_count all_touched st (f :: rest) =
      { out := [], logs := [], err := some e, feats := f :: rest,
        reads := (processFeature env cfg stats run_count all_touched st f).reads,
        rasts := (processFeature env cfg stats run_count all_touched st f).rasts } := by
  simp only [runFeatures, h]

/-- C1: a resource-exhaustion (memory) error at the window-acquisition,
rasterization, masking, compression, or coverage-weight step of a feature
skips exactly that feature: its original properties are logged for
diagnosis, no record of any kind is yielded for it, and the rest of the
run is the run of the remaining features (so every subsequent feature is
still processed and present, and the whole run is never aborted by this
feature's resource failure). -/
theorem C1_memory_error_skips_only_that_feature (env : Env) (cfg : Cfg)
    (stats : List Stat) (run_count all_touched : Bool) (st : LoopState)
    (feat : Feature) (p : Dict) (rest : List Feature)
    (hp : feat.properties = some p)
    (hmem : memSkipCause env all_touched st feat = true) :
    (processFeature env cfg stats run_count all_touched st feat).res =
      .skipped p ⟨effW st feat, st.pctcover⟩ ∧
    (runFeatures env cfg stats run_count all_touched st (feat :: rest)).out =
      (runFeatures env cfg stats run_count all_touched
        ⟨effW st feat, st.pctcover⟩ rest).out ∧
    (runFeatures env cfg stats run_count all_touched st (feat :: rest)).logs =
      p :: (runFeatures env cfg stats run_count all_touched
        ⟨effW st feat, st.pctcover⟩ rest).logs ∧
    (runFeatures env cfg stats run_count all_touched st (feat :: rest)).err =
      (runFeatures env cfg stats run_count all_touched
        ⟨effW st feat, st.pctcover⟩ rest).err := by
  have hskip := processFeature_skipped_of_mem env cfg stats run_count
    all_touched st feat p hp hmem
  have hrun := runFeatures_cons_skipped env cfg stats run_count all_touched
    st ⟨effW st feat, st.pctcover⟩ feat p rest hskip
  exact ⟨hskip, by rw [hrun], by rw [hrun], by rw [hrun]⟩

/-! ### C3: weighted statistics force the all-touched policy -/

@[simp] theorem skipOut_rasts (feat : Feature) (st : LoopState)
    (reads : List Geom) (rasts : List (Geom × Bool)) :
    (skipOut feat st reads rasts).rasts = rasts := by
  cases h : feat.properties <;> simp [skipOut, h]

@[simp] theorem finalize_rasts (cfg : Cfg) (feat : Feature) (masked : Masked)
    (aff : Nat) (nd : Option Q) (fs : Dict) (st : LoopState)
    (reads : List Geom) (rasts : List (Geom × Bool)) :
    (finalize cfg feat masked aff nd fs st reads rasts).rasts = rasts := by
  cases h : applyAddStats cfg.add_stats masked fs <;> simp [finalize, h]

/-- Every `rasterize_geom` invocation recorded by one iteration carries the
loop's all-touched flag. -/
theorem processFeature_rasts_flag (env : Env) (cfg : Cfg) (stats : List Stat)
    (run_count all_touched : Bool) (st : LoopState) (feat : Feature) :
    ∀ pr ∈ (processFeature env cfg stats run_count all_touched st feat).rasts,
      pr.2 = all_touched := by
  intro pr hpr
  cases hread : env.read (effGeom env feat) with
  | error e => simp [processFeature, hread] at hpr
  | ok fsrc =>
    cases hrast : env.rasterize_geom (effGeom env feat) fsrc all_touched with
    | error e =>
      simp [processFeature, hread, hrast] at hpr
      rw [hpr]
    | ok rv =>
      by_cases hsh : (rv.rows, rv.cols) = (fsrc.rows, fsrc.cols)
      · by_cases hmf : env.maskFail (effGeom env feat)
        · simp [processFeature, hread, hrast, hsh, hmf] at hpr
          rw [hpr]
        · by_cases hcf : env.compressFail (effGeom env feat)
          · simp [processFeature, hread, hrast, hsh, hmf, hcf] at hpr
            rw [hpr]
          · by_cases hemp : (compressM (buildMasked fsrc rv)).isEmpty
            · simp [processFeature, hread, hrast, hsh, hmf, hcf, hemp] at hpr
              rw [hpr]
            · by_cases hw : effW st feat
              · cases hpc : env.rasterize_pctcover (effGeom env feat) fsrc.affine
                    (fsrc.rows, fsrc.cols) with
                | error e =>
                  simp [processFeature, hread, hrast, hsh, hmf, hcf, hemp, hw,
                    hpc, Except.map] at hpr
                  rw [hpr]
                | ok pc =>
                  cases hps : popStats stats run_count cfg.categorical
                      cfg.category_map (buildMasked fsrc rv)
                      (compressM (buildMasked fsrc rv)) (some pc)
                      (if Stat.nodata ∈ stats then
                        dset [] (.str "nodata") (.vfloat (nodataCount fsrc rv))
                      else []) with
                  | error e =>
                    simp [processFeature, hread, hrast, hsh, hmf, hcf, hemp,
                      hw, hpc, Except.map, hps] at hpr
                    rw [hpr]
                  | ok fs =>
                    simp [processFeature, hread, hrast, hsh, hmf, hcf, hemp,
                      hw, hpc, Except.map, hps] at hpr
                    rw [hpr]
              · cases hps : popStats stats run_count cfg.categorical
                    cfg.category_map (buildMasked fsrc rv)
                    (compressM (buildMasked fsrc rv)) st.pctcover
                    (if Stat.nodata ∈ stats then
                      dset [] (.str "nodata") (.vfloat (nodataCount fsrc rv))
                    else []) with
                | error e =>
                  simp [processFeature, hread, hrast, hsh, hmf, hcf, hemp, hw,
                    hps] at hpr
                  rw [hpr]
                | ok fs =>
                  simp [processFeature, hread, hrast, hsh, hmf, hcf, hemp, hw,
                    hps] at hpr
                  rw [hpr]
      · simp [processFeature, hread, hrast, hsh] at hpr
        rw [hpr]

/-- The all-touched flag of every recorded rasterization over a whole run
of the loop. -/
theorem runFeatures_rasts_flag (env : Env) (cfg : Cfg) (stats : List Stat)
    (run_count all_touched : Bool) :
    ∀ (feats : List Feature) (st : LoopState),
      ∀ pr ∈ (runFeatures env cfg stats run_count all_touched st feats).rasts,
        pr.2 = all_touched := by
  intro feats
  induction feats with
  | nil => intro st pr hpr; simp [runFeatures] at hpr
  | cons f rest ih =>
    intro st pr hpr
    cases hres : (processFeature env cfg stats run_count all_touched st f).res with
    | skipped p st' =>
      rw [runFeatures_cons_skipped env cfg stats run_count all_touched st st'
        f p rest hres] at hpr
      rcases List.mem_append.mp hpr with h | h
      · exact processFeature_rasts_flag env cfg stats run_count all_touched st f pr h
      · exact ih st' pr h
    | yielded rec f' st' =>
      rw [runFeatures_cons_yielded env cfg stats run_count all_touched st st'
        f f' rec rest hres] at hpr
      rcases List.mem_append.mp hpr with h | h
      · exact processFeature_rasts_flag env cfg stats run_count all_touched st f pr h
      · exact ih st' pr h
    | fatal e =>
      rw [runFeatures_cons_fatal env cfg stats run_count all_touched st f e
        rest hres] at hpr
      exact processFeature_rasts_flag env cfg stats run_count all_touched st f pr hpr

/-- C3: when the validated statistic selection requests any weighted
statistic, the all-touched rasterization policy is forced on during setup
and applies to the rasterization of every feature of the run — even when
the caller passed `all_touched = false`. -/
theorem C3_weights_force_all_touched (env : Env) (cfg : Cfg)
    (feats : List Feature) (stats : List Stat) (run_count : Bool)
    (hw : check_stats cfg.stats cfg.categorical = .ok (stats, run_count, true)) :
    ∀ pr ∈ (gen_zonal_stats env cfg feats).rasts, pr.2 = true := by
  intro pr hpr
  rw [gen_zonal_stats, hw] at hpr
  exact runFeatures_rasts_flag env cfg stats run_count true feats
    ⟨true, none⟩ pr hpr

/-! ### C7: eager validation -/

theorem firstInvalid_isSome_of_invalid (l : List Stat)
    (h : invalidSelection l) : (firstInvalid l).isSome := by
  induction l with
  | nil =>
    rcases h with ⟨nm, hnm⟩ | ⟨q, hq, _⟩
    · cases hnm
    · cases hq
  | cons s rest ih =>
    rw [firstInvalid]
    cases hse : statErr s with
    | some e => rfl
    | none =>
      apply ih
      rcases h with ⟨nm, hnm⟩ | ⟨q, hq, hbad⟩
      · rcases List.mem_cons.mp hnm with heq | hmem
        · rw [← heq] at hse; simp [statErr] at hse
        · exact Or.inl ⟨nm, hmem⟩
      · rcases List.mem_cons.mp hq with heq | hmem
        · rw [← heq] at hse; simp [statErr, hbad] at hse
        · exact Or.inr ⟨q, hmem, hbad⟩

/-- C7: an invalid statistics selection makes the call fail with a
validation error raised eagerly: before the raster dataset is opened or
read, before any feature is processed, and before any result is yielded. -/
theorem C7_invalid_stats_fail_before_any_work (env : Env) (cfg : Cfg)
    (feats : List Feature) (sl : List Stat)
    (hsl : cfg.stats = some sl) (hinv : invalidSelection sl) :
    ∃ e, check_stats cfg.stats cfg.categorical = .error e ∧
      gen_zonal_stats env cfg feats =
        { opened := false, out := [], logs := [], err := some e,
          feats := feats, reads := [], rasts := [] } := by
  obtain ⟨e, he⟩ := Option.isSome_iff_exists.mp
    (firstInvalid_isSome_of_invalid sl hinv)
  have hchk : check_stats cfg.stats cfg.categorical = .error e := by
    simp [check_stats, hsl, he]
  exact ⟨e, hchk, by rw [gen_zonal_stats, hchk]⟩

/-! ### C8: the shape assertion is fatal, not skipped -/

/-- C8: a rasterized coverage mask whose shape disagrees with the window's
shape raises the distinguishable `AssertionError`: the feature is not
skipped (nothing is logged), nothing is yielded for it, and the generator
aborts instead of continuing — the fault is not absorbed by the
`MemoryError` skip handling. -/
theorem C8_shape_mismatch_is_fatal (env : Env) (cfg : Cfg)
    (stats : List Stat) (run_count all_touched : Bool) (st : LoopState)
    (feat : Feature) (fsrc : Window) (rv : RVArray) (rest : List Feature)
    (hread : env.read (effGeom env feat) = .ok fsrc)
    (hrast : env.rasterize_geom (effGeom env feat) fsrc all_touched = .ok rv)
    (hsh : (rv.rows, rv.cols) ≠ (fsrc.rows, fsrc.cols)) :
    (processFeature env cfg stats run_count all_touched st feat).res =
      .fatal .assertionError ∧
    runFeatures env cfg stats run_count all_touched st (feat :: rest) =
      { out := [], logs := [], err := some .assertionError,
        feats := feat :: rest,
        reads := (processFeature env cfg stats run_count all_touched st feat).reads,
        rasts := (processFeature env cfg stats run_count all_touched st feat).rasts } := by
  have h1 : (processFeature env cfg stats run_count all_touched st feat).res =
      .fatal .assertionError := by
    simp [processFeature, hread, hrast, hsh]
  exact ⟨h1, runFeatures_cons_fatal env cfg stats run_count all_touched st
    feat .assertionError rest h1⟩

/-! ### C2: the empty-value case -/

theorem dget_foldl_vnone (stats : List Stat) (d : Dict) (k : Key) :
    dget (stats.foldl (fun d s => dset d s.key .vnone) d) k =
      if k ∈ stats.map Stat.key then some .vnone else dget d k := by
  induction stats generalizing d with
  | nil => simp
  | cons s rest ih =>
    simp only [List.foldl_cons, ih, List.map_cons, List.mem_cons]
    by_cases hr : k ∈ rest.map Stat.key
    · simp [hr]
    · by_cases hk : k = s.key <;> simp [hr, hk, dget_dset]

/-- Among validated statistics (no `other`), only `count` is stored under
the key `"count"`. -/
theorem Stat.key_count (s : Stat) (ho : ∀ nm, s ≠ Stat.other nm)
    (h : s.key = Key.str "count") : s = Stat.count := by
  cases s with
  | count => rfl
  | other nm => exact absurd rfl (ho nm)
  | percentile q => exact absurd h (by simp [Stat.key])
  | sum => exact absurd h (by decide)
  | mean => exact absurd h (by decide)
  | min => exact absurd h (by decide)
  | max => exact absurd h (by decide)
  | std => exact absurd h (by decide)
  | median => exact absurd h (by decide)
  | majority => exact absurd h (by decide)
  | minority => exact absurd h (by decide)
  | unique => exact absurd h (by decide)
  | range => exact absurd h (by decide)
  | nodata => exact absurd h (by decide)
  | weighted_mean => exact absurd h (by decide)
  | weighted_sum => exact absurd h (by decide)
  | weighted_count => exact absurd h (by decide)

/-- Every requested statistic is `None` in the empty-case dict, except
`count`, which is the integer `0`. -/
theorem emptyStats_dget (stats : List Stat) (s : Stat)
    (hno : ∀ nm, Stat.other nm ∉ stats) (hs : s ∈ stats) :
    dget (emptyStats stats) s.key =
      some (if s = Stat.count then Val.vint 0 else Val.vnone) := by
  have hmem : s.key ∈ stats.map Stat.key := List.mem_map_of_mem _ hs
  unfold emptyStats
  by_cases hc : Stat.count ∈ stats
  · by_cases hsc : s = Stat.count
    · subst hsc
      simp [Stat.key, hc]
    · have hkey : s.key ≠ Key.str "count" := by
        intro h
        exact hsc (Stat.key_count s (fun nm hnm => hno nm (hnm ▸ hs)) h)
      simp only [hc, if_true]
      rw [dget_dset_ne _ _ hkey, dget_foldl_vnone, if_pos hmem, if_neg hsc]
  · have hsc : s ≠ Stat.count := fun h => hc (h ▸ hs)
    simp only [hc, if_false]
    rw [dget_foldl_vnone, if_pos hmem, if_neg hsc]

/-- C2: a feature whose masked-and-compressed value list is empty yields a
result in which every requested statistic is `None` except `count`, which
is the integer `0` (stated for the plain output mode, in which the stats
dict is yielded unchanged). -/
theorem C2_empty_compressed_gives_none_except_count_zero (env : Env)
    (cfg : Cfg) (stats : List Stat) (run_count all_touched : Bool)
    (st : LoopState) (feat : Feature) (fsrc : Window) (rv : RVArray)
    (hg : cfg.geojson_out = false) (hsv : cfg.save_properties = false)
    (hpf : cfg.pfx = none) (has : cfg.add_stats = none)
    (hro : cfg.raster_out = false)
    (hread : env.read (effGeom env feat) = .ok fsrc)
    (hrast : env.rasterize_geom (effGeom env feat) fsrc all_touched = .ok rv)
    (hsh : (rv.rows, rv.cols) = (fsrc.rows, fsrc.cols))
    (hmf : env.maskFail (effGeom env feat) = false)
    (hcf : env.compressFail (effGeom env feat) = false)
    (hemp : compressM (buildMasked fsrc rv) = [])
    (hno : ∀ nm, Stat.other nm ∉ stats) :
    (processFeature env cfg stats run_count all_touched st feat).res =
      .yielded (.rstats (emptyStats stats)) feat ⟨effW st feat, st.pctcover⟩ ∧
    ∀ s ∈ stats, dget (emptyStats stats) s.key =
      some (if s = Stat.count then Val.vint 0 else Val.vnone) := by
  constructor
  · have hemp' : (compressM (buildMasked fsrc rv)).isEmpty = true := by
      rw [hemp]; rfl
    simp [processFeature, hread, hrast, hsh, hmf, hcf, hemp', finalize,
      applyAddStats, has, hro, applyPfx, hpf, emitResult, hg, hsv]
  · exact fun s hs => emptyStats_dget stats s hno hs

/-! ### C9: custom statistic functions -/

/-- C9: every caller-supplied custom statistic is invoked with the full
masked array (data plus mask, not the compressed list); its scalar result
is stored under the supplied name, and an exception it raises propagates
out of the iteration as a fatal error that aborts the entire call — the
feature is not skipped and the remaining features are never processed. -/
theorem C9_add_stats_masked_and_errors_propagate (cfg : Cfg) (nm : String)
    (fstat : Masked → Except String Val)
    (hadd : cfg.add_stats = some [(nm, fstat)])
    (hg : cfg.geojson_out = false) (hsv : cfg.save_properties = false)
    (hpf : cfg.pfx = none) (hro : cfg.raster_out = false) :
    (∀ (feat : Feature) (masked : Masked) (aff : Nat) (nd : Option Q)
        (fs : Dict) (st : LoopState) (reads : List Geom)
        (rasts : List (Geom × Bool)) (v : Val),
      fstat masked = .ok v →
        finalize cfg feat masked aff nd fs st reads rasts =
          ⟨.yielded (.rstats (dset fs (.str nm) v)) feat st, reads, rasts⟩ ∧
        dget (dset fs (.str nm) v) (.str nm) = some v) ∧
    (∀ (feat : Feature) (masked : Masked) (aff : Nat) (nd : Option Q)
        (fs : Dict) (st : LoopState) (reads : List Geom)
        (rasts : List (Geom × Bool)) (msg : String),
      fstat masked = .error msg →
        finalize cfg feat masked aff nd fs st reads rasts =
          ⟨.fatal (.custom msg), reads, rasts⟩) ∧
    (∀ (env : Env) (stats : List Stat) (run_count all_touched : Bool)
        (st : LoopState) (feat : Feature) (rest : List Feature) (msg : String),
      (processFeature env cfg stats run_count all_touched st feat).res =
        .fatal (.custom msg) →
        runFeatures env cfg stats run_count all_touched st (feat :: rest) =
          { out := [], logs := [], err := some (.custom msg),
            feats := feat :: rest,
            reads := (processFeature env cfg stats run_count all_touched st feat).reads,
            rasts := (processFeature env cfg stats run_count all_touched st feat).rasts }) := by
  refine ⟨?_, ?_, ?_⟩
  · intro feat masked aff nd fs st reads rasts v hok
    constructor
    · simp [finalize, applyAddStats, hadd, List.foldlM, hok, hro, applyPfx,
        hpf, emitResult, hg, hsv]
    · exact dget_dset_same fs (.str nm) v
  · intro feat masked aff nd fs st reads rasts msg herr
    simp [finalize, applyAddStats, hadd, List.foldlM, herr]
  · intro env stats run_count all_touched st feat rest msg hres
    exact runFeatures_cons_fatal env cfg stats run_count all_touched st feat
      (.custom msg) rest hres

/-! ### C10: output shaping and in-place property merging -/

theorem foldl_mergeProps_some (fs : Dict) :
    ∀ d : Dict,
      fs.foldl (fun acc kv => some (dset (acc.getD []) kv.1 kv.2)) (some d) =
        some (mergeD d fs) := by
  induction fs with
  | nil => intro d; rfl
  | cons kv rest ih =>
    intro d
    simp only [List.foldl_cons, Option.getD_some]
    rw [ih (dset d kv.1 kv.2)]
    rfl

/-- With at least one statistic to write, the merge always produces a
properties mapping: it is created when absent. -/
theorem mergeProps_eq_mergeD (ps : Option Dict) (fs : Dict) (hfs : fs ≠ []) :
    mergeProps ps fs = some (mergeD (ps.getD []) fs) := by
  cases fs with
  | nil => exact absurd rfl hfs
  | cons kv rest =>
    rw [mergeProps, List.foldl_cons, foldl_mergeProps_some]
    rfl

theorem dget_dset_isSome (d : Dict) (k k' : Key) (v : Val)
    (h : (dget d k).isSome) : (dget (dset d k' v) k).isSome := by
  rw [dget_dset]
  by_cases hk : k = k' <;> simp [hk, h]

theorem dget_mergeD_isSome (fs : Dict) :
    ∀ (d : Dict) (k : Key),
      ((dget d k).isSome ∨ ∃ v, (k, v) ∈ fs) →
        (dget (mergeD d fs) k).isSome := by
  induction fs with
  | nil =>
    intro d k h
    rcases h with h | ⟨v, hv⟩
    · exact h
    · cases hv
  | cons kv rest ih =>
    intro d k h
    have hstep : mergeD d (kv :: rest) = mergeD (dset d kv.1 kv.2) rest := rfl
    rw [hstep]
    rcases h with h | ⟨v, hv⟩
    · exact ih _ k (Or.inl (dget_dset_isSome d k kv.1 kv.2 h))
    · rcases List.mem_cons.mp hv with heq | hmem
      · apply ih _ k (Or.inl ?_)
        rw [← heq]
        simp [dget_dset_same]
      · exact ih _ k (Or.inr ⟨v, hmem⟩)

/-- C10: with `geojson_out` the stats are merged into the input feature's
properties (created when absent) and that same updated feature is both the
yielded record and the feature's final state; with `save_properties` the
same merged properties mapping is yielded; with neither flag the input
feature is left unmodified and a standalone stats mapping is yielded.
Every statistic key is present in the merged mapping. -/
theorem C10_output_merging_mutates_feature (cfg : Cfg) (feat : Feature)
    (fs : Dict) (st : LoopState) (hfs : fs ≠ []) :
    (cfg.geojson_out = true →
      emitResult cfg feat fs st =
        .yielded
          (.rfeat { feat with
            properties := some (mergeD (feat.properties.getD []) fs) })
          { feat with
            properties := some (mergeD (feat.properties.getD []) fs) } st) ∧
    (cfg.geojson_out = false → cfg.save_properties = true →
      emitResult cfg feat fs st =
        .yielded (.rprops (mergeD (feat.properties.getD []) fs))
          { feat with
            properties := some (mergeD (feat.properties.getD []) fs) } st) ∧
    (cfg.geojson_out = false → cfg.save_properties = false →
      emitResult cfg feat fs st = .yielded (.rstats fs) feat st) ∧
    (∀ kv ∈ fs, (dget (mergeD (feat.properties.getD []) fs) kv.1).isSome) := by
  have hm := mergeProps_eq_mergeD feat.properties fs hfs
  refine ⟨?_, ?_, ?_, ?_⟩
  · intro hg; simp [emitResult, hg, hm]
  · intro hg hsv; simp [emitResult, hg, hsv, hm]
  · intro hg hsv; simp [emitResult, hg, hsv]
  · intro kv hkv
    exact dget_mergeD_isSome fs (feat.properties.getD []) kv.1
      (Or.inr ⟨kv.2, hkv⟩)

/-! ### Reduction lemmas for the `Except` monad and the stats stages -/

theorem exPure_eq_ok {α ε : Type} (a : α) : (pure a : Except ε α) = .ok a := rfl

theorem exBind_def {α β ε : Type} (x : Except ε α) (g : α → Except ε β) :
    x >>= g = Except.bind x g := rfl

theorem dget_iteset (P : Prop) [Decidable P] (d : Dict) (k' : Key) (v : Val)
    (k : Key) (h : k ≠ k') :
    dget (if P then dset d k' v else d) k = dget d k := by
  split
  · exact dget_dset_ne d v h
  · rfl

theorem foldl_add_eq (l : List Q) : ∀ a : Q, l.foldl (· + ·) a = a + qsum l := by
  induction l with
  | nil => intro a; simp [qsum]
  | cons x xs ih =>
    intro a
    have h0 : qsum (x :: xs) = (0 + x) + qsum xs := by
      rw [qsum, List.foldl_cons, ih (0 + x)]
    rw [List.foldl_cons, ih (a + x), h0]
    ring

theorem qsum_cons (x : Q) (l : List Q) : qsum (x :: l) = x + qsum l := by
  rw [qsum, List.foldl_cons, foldl_add_eq]
  ring

theorem qsum_nonneg (l : List Q) (h : ∀ w ∈ l, 0 ≤ w) : 0 ≤ qsum l := by
  induction l with
  | nil => simp [qsum]
  | cons x xs ih =>
    rw [qsum_cons]
    have hx := h x (by simp)
    have hxs := ih (fun w hw => h w (List.mem_cons_of_mem x hw))
    linarith

theorem qsum_le_length (l : List Q) (h : ∀ w ∈ l, w ≤ 1) :
    qsum l ≤ (l.length : Q) := by
  induction l with
  | nil => simp [qsum]
  | cons x xs ih =>
    rw [qsum_cons]
    have hx := h x (by simp)
    have hxs := ih (fun w hw => h w (List.mem_cons_of_mem x hw))
    rw [List.length_cons]
    push_cast
    linarith

/-- Closed form of the weighted-statistics stage with a bound `pctcover`. -/
theorem weightedStats_some_eq (stats : List Stat) (masked : Masked) (pc : PC)
    (fs : Dict) :
    weightedStats stats masked (some pc) fs =
      if (Stat.weighted_mean ∈ stats ∨ Stat.weighted_sum ∈ stats) ∧
          ¬(pc.rows, pc.cols) = (masked.rows, masked.cols) then
        .error .valueError
      else
        .ok (let fs1 := if Stat.weighted_mean ∈ stats then
              dset fs (.str "weighted_mean") (.vfloat (wmean masked pc)) else fs
          let fs2 := if Stat.weighted_count ∈ stats then
              dset fs1 (.str "weighted_count") (.vfloat (qsum pc.data)) else fs1
          if Stat.weighted_sum ∈ stats then
              dset fs2 (.str "weighted_sum") (.vfloat (wsum masked pc)) else fs2) := by
  by_cases hwm : Stat.weighted_mean ∈ stats <;>
  by_cases hwc : Stat.weighted_count ∈ stats <;>
  by_cases hws : Stat.weighted_sum ∈ stats <;>
  by_cases hsh : (pc.rows, pc.cols) = (masked.rows, masked.cols) <;>
    simp_all [weightedStats, needPc, exPure_eq_ok, exBind_def,
      Except.bind, throw, throwThe, MonadExceptOf.throw, Prod.mk.injEq]

/-- Closed form of the weighted-statistics stage with `pctcover` unbound. -/
theorem weightedStats_none_eq (stats : List Stat) (masked : Masked)
    (fs : Dict) :
    weightedStats stats masked none fs =
      if Stat.weighted_mean ∈ stats ∨ Stat.weighted_count ∈ stats ∨
          Stat.weighted_sum ∈ stats then
        .error .nameError
      else .ok fs := by
  by_cases hwm : Stat.weighted_mean ∈ stats <;>
  by_cases hwc : Stat.weighted_count ∈ stats <;>
  by_cases hws : Stat.weighted_sum ∈ stats <;>
    simp [weightedStats, needPc, hwm, hwc, hws, exPure_eq_ok, exBind_def,
      Except.bind, throw, throwThe, MonadExceptOf.throw]

/-- The weighted stage writes only the three `weighted_*` keys. -/
theorem weightedStats_dget_other (stats : List Stat) (masked : Masked)
    (pct : Option PC) (fs fs' : Dict) (k : Key)
    (h : weightedStats stats masked pct fs = .ok fs')
    (h1 : k ≠ .str "weighted_mean") (h2 : k ≠ .str "weighted_count")
    (h3 : k ≠ .str "weighted_sum") :
    dget fs' k = dget fs k := by
  cases pct with
  | none =>
    rw [weightedStats_none_eq] at h
    split at h
    · cases h
    · cases h; rfl
  | some pc =>
    rw [weightedStats_some_eq] at h
    split at h
    · cases h
    · simp only [Except.ok.injEq] at h
      subst h
      rw [dget_iteset _ _ _ _ _ h3, dget_iteset _ _ _ _ _ h2,
        dget_iteset _ _ _ _ _ h1]

/-- The `weighted_count` entry is the sum of the whole coverage array. -/
theorem weightedStats_dget_wcount (stats : List Stat) (masked : Masked)
    (pc : PC) (fs fs' : Dict)
    (hwc : Stat.weighted_count ∈ stats)
    (h : weightedStats stats masked (some pc) fs = .ok fs') :
    dget fs' (.str "weighted_count") = some (.vfloat (qsum pc.data)) := by
  rw [weightedStats_some_eq] at h
  split at h
  · cases h
  · simp only [Except.ok.injEq] at h
    subst h
    rw [dget_iteset _ _ _ _ _ (by decide : Key.str "weighted_count" ≠ Key.str "weighted_sum")]
    simp [hwc]

/-- The scalar stage writes only its ten statistic keys. -/
theorem scalarStats_dget_other (stats : List Stat) (c : List Q)
    (pcount : List (Q × Nat)) (fs : Dict) (k : Key)
    (h1 : k ≠ .str "mean") (h2 : k ≠ .str "count") (h3 : k ≠ .str "sum")
    (h4 : k ≠ .str "min") (h5 : k ≠ .str "max") (h6 : k ≠ .str "std")
    (h7 : k ≠ .str "median") (h8 : k ≠ .str "majority")
    (h9 : k ≠ .str "minority") (h10 : k ≠ .str "unique") :
    dget (scalarStats stats c pcount fs) k = dget fs k := by
  simp only [scalarStats]
  rw [dget_iteset _ _ _ _ _ h10, dget_iteset _ _ _ _ _ h9,
    dget_iteset _ _ _ _ _ h8, dget_iteset _ _ _ _ _ h7,
    dget_iteset _ _ _ _ _ h6, dget_iteset _ _ _ _ _ h5,
    dget_iteset _ _ _ _ _ h4, dget_iteset _ _ _ _ _ h3,
    dget_iteset _ _ _ _ _ h2, dget_iteset _ _ _ _ _ h1]

/-- The `'min'` entry after the scalar stage: the fresh minimum when the
`min` statistic was requested, untouched otherwise. -/
theorem scalarStats_dget_min (stats : List Stat) (c : List Q)
    (pcount : List (Q × Nat)) (fs : Dict) :
    dget (scalarStats stats c pcount fs) (.str "min") =
      if Stat.min ∈ stats then some (.vfloat (fmin c))
      else dget fs (.str "min") := by
  simp only [scalarStats]
  rw [dget_iteset _ _ _ _ _ (by decide : Key.str "min" ≠ Key.str "unique"),
    dget_iteset _ _ _ _ _ (by decide : Key.str "min" ≠ Key.str "minority"),
    dget_iteset _ _ _ _ _ (by decide : Key.str "min" ≠ Key.str "majority"),
    dget_iteset _ _ _ _ _ (by decide : Key.str "min" ≠ Key.str "median"),
    dget_iteset _ _ _ _ _ (by decide : Key.str "min" ≠ Key.str "std"),
    dget_iteset _ _ _ _ _ (by decide : Key.str "min" ≠ Key.str "max")]
  by_cases hm : Stat.min ∈ stats
  · simp [hm]
  · rw [if_neg hm, if_neg hm,
      dget_iteset _ _ _ _ _ (by decide : Key.str "min" ≠ Key.str "sum"),
      dget_iteset _ _ _ _ _ (by decide : Key.str "min" ≠ Key.str "count"),
      dget_iteset _ _ _ _ _ (by decide : Key.str "min" ≠ Key.str "mean")]

/-- The `'max'` entry after the scalar stage. -/
theorem scalarStats_dget_max (stats : List Stat) (c : List Q)
    (pcount : List (Q × Nat)) (fs : Dict) :
    dget (scalarStats stats c pcount fs) (.str "max") =
      if Stat.max ∈ stats then some (.vfloat (fmax c))
      else dget fs (.str "max") := by
  simp only [scalarStats]
  rw [dget_iteset _ _ _ _ _ (by decide : Key.str "max" ≠ Key.str "unique"),
    dget_iteset _ _ _ _ _ (by decide : Key.str "max" ≠ Key.str "minority"),
    dget_iteset _ _ _ _ _ (by decide : Key.str "max" ≠ Key.str "majority"),
    dget_iteset _ _ _ _ _ (by decide : Key.str "max" ≠ Key.str "median"),
    dget_iteset _ _ _ _ _ (by decide : Key.str "max" ≠ Key.str "std")]
  by_cases hm : Stat.max ∈ stats
  · simp [hm]
  · rw [if_neg hm, if_neg hm,
      dget_iteset _ _ _ _ _ (by decide : Key.str "max" ≠ Key.str "min"),
      dget_iteset _ _ _ _ _ (by decide : Key.str "max" ≠ Key.str "sum"),
      dget_iteset _ _ _ _ _ (by decide : Key.str "max" ≠ Key.str "count"),
      dget_iteset _ _ _ _ _ (by decide : Key.str "max" ≠ Key.str "mean")]

/-- When the entries under `'min'`/`'max'` are absent or are the fresh
extremes, `range` is written as exactly `max − min` of the surviving
values. -/
theorem rangeStat_eq_of (stats : List Stat) (c : List Q) (fs : Dict)
    (hr : Stat.range ∈ stats)
    (hmin : dget fs (.str "min") = none ∨
      dget fs (.str "min") = some (.vfloat (fmin c)))
    (hmax : dget fs (.str "max") = none ∨
      dget fs (.str "max") = some (.vfloat (fmax c))) :
    rangeStat stats c fs =
      .ok (dset fs (.str "range") (.vfloat (fmax c - fmin c))) := by
  rcases hmin with hmin | hmin <;> rcases hmax with hmax | hmax <;>
    simp [rangeStat, hr, hmin, hmax, valNum, exPure_eq_ok, exBind_def,
      Except.bind]

/-- The range stage writes only the `'range'` key. -/
theorem rangeStat_ok_dget_ne (stats : List Stat) (c : List Q) (fs fs' : Dict)
    (k : Key) (h : rangeStat stats c fs = .ok fs') (hk : k ≠ .str "range") :
    dget fs' k = dget fs k := by
  by_cases hr : Stat.range ∈ stats
  · cases hmin : dget fs (.str "min") with
    | none =>
      cases hmax : dget fs (.str "max") with
      | none =>
        simp [rangeStat, hr, hmin, hmax, exPure_eq_ok, exBind_def,
          Except.bind] at h
        rw [← h, dget_dset_ne _ _ hk]
      | some v =>
        cases hv : valNum v with
        | error e =>
          simp [rangeStat, hr, hmin, hmax, hv, exPure_eq_ok, exBind_def,
            Except.bind] at h
        | ok a =>
          simp [rangeStat, hr, hmin, hmax, hv, exPure_eq_ok, exBind_def,
            Except.bind] at h
          rw [← h, dget_dset_ne _ _ hk]
    | some v =>
      cases hv : valNum v with
      | error e =>
        simp [rangeStat, hr, hmin, hv, exPure_eq_ok, exBind_def,
          Except.bind] at h
      | ok a =>
        cases hmax : dget fs (.str "max") with
        | none =>
          simp [rangeStat, hr, hmin, hmax, hv, exPure_eq_ok, exBind_def,
            Except.bind] at h
          rw [← h, dget_dset_ne _ _ hk]
        | some w =>
          cases hw : valNum w with
          | error e =>
            simp [rangeStat, hr, hmin, hmax, hv, hw, exPure_eq_ok, exBind_def,
              Except.bind] at h
          | ok b =>
            simp [rangeStat, hr, hmin, hmax, hv, hw, exPure_eq_ok, exBind_def,
              Except.bind] at h
            rw [← h, dget_dset_ne _ _ hk]
  · simp [rangeStat, hr, exPure_eq_ok] at h
    rw [h]

/-- The percentile stage writes only `percentile_N` keys, never a plain
string key. -/
theorem percStats_dget_str (stats : List Stat) (c : List Q) (s : String) :
    ∀ fs : Dict, dget (percStats stats c fs) (.str s) = dget fs (.str s) := by
  induction stats with
  | nil => intro fs; rfl
  | cons st rest ih =>
    intro fs
    cases st with
    | percentile q =>
      have h2 := ih (dset fs (.pct q) (.vfloat (npPercentile c q)))
      simp only [percStats, List.foldl_cons] at h2 ⊢
      rw [h2, dget_dset_ne _ _ (by simp : Key.str s ≠ Key.pct q)]
    | count => exact ih fs
    | sum => exact ih fs
    | mean => exact ih fs
    | min => exact ih fs
    | max => exact ih fs
    | std => exact ih fs
    | median => exact ih fs
    | majority => exact ih fs
    | minority => exact ih fs
    | unique => exact ih fs
    | range => exact ih fs
    | nodata => exact ih fs
    | weighted_mean => exact ih fs
    | weighted_sum => exact ih fs
    | weighted_count => exact ih fs
    | other nm => exact ih fs

/-- Categorical off: the first stage passes the incoming dict through. -/
theorem catStats_false (run_count : Bool)
    (cmap : Option (List (Q × String))) (pcount : List (Q × Nat))
    (fs1 : Dict) : catStats run_count false cmap pcount fs1 = fs1 := by
  simp [catStats]

/-- A successful `popStats` run decomposes into its successful stages. -/
theorem popStats_ok_elim (stats : List Stat) (run_count categorical : Bool)
    (cmap : Option (List (Q × String))) (masked : Masked)
    (compressed : List Q) (pct : Option PC) (fs1 fs : Dict)
    (h : popStats stats run_count categorical cmap masked compressed pct fs1 =
      .ok fs) :
    ∃ fsW fsR,
      weightedStats stats masked pct
        (catStats run_count categorical cmap (histogram compressed) fs1) =
        .ok fsW ∧
      rangeStat stats compressed
        (scalarStats stats compressed (histogram compressed) fsW) = .ok fsR ∧
      fs = percStats stats compressed fsR := by
  cases hw : weightedStats stats masked pct
      (catStats run_count categorical cmap (histogram compressed) fs1) with
  | error e => simp [popStats, hw, exBind_def, Except.bind] at h
  | ok fsW =>
    cases hrg : rangeStat stats compressed
        (scalarStats stats compressed (histogram compressed) fsW) with
    | error e => simp [popStats, hw, hrg, exBind_def, Except.bind] at h
    | ok fsR =>
      refine ⟨fsW, fsR, rfl, ?_, ?_⟩
      · first
        | rfl
        | exact hrg
      simp [popStats, hw, hrg, exBind_def, Except.bind, exPure_eq_ok] at h
      exact h.symm

/-- C5 (amended): `weighted_count` is the sum of the entire coverage-weight
array of the window — including weight lying on excluded (nodata or
uncovered) cells — so with every weight in [0, 1] it satisfies
`0 ≤ weighted_count ≤ number of window cells`; it is not restricted to the
surviving cells and can exceed `count`. -/
theorem C5_weighted_count_sums_whole_coverage (stats : List Stat)
    (run_count categorical : Bool) (cmap : Option (List (Q × String)))
    (masked : Masked) (compressed : List Q) (pc : PC) (fs1 fs : Dict)
    (hwc : Stat.weighted_count ∈ stats)
    (h : popStats stats run_count categorical cmap masked compressed
      (some pc) fs1 = .ok fs)
    (hb : ∀ w ∈ pc.data, 0 ≤ w ∧ w ≤ 1) :
    dget fs (.str "weighted_count") = some (.vfloat (qsum pc.data)) ∧
    0 ≤ qsum pc.data ∧ qsum pc.data ≤ (pc.data.length : Q) := by
  obtain ⟨fsW, fsR, hw, hrg, hfs⟩ :=
    popStats_ok_elim _ _ _ _ _ _ _ _ _ h
  constructor
  · rw [hfs, percStats_dget_str,
      rangeStat_ok_dget_ne _ _ _ _ _ hrg (by decide),
      scalarStats_dget_other _ _ _ _ _ (by decide) (by decide) (by decide)
        (by decide) (by decide) (by decide) (by decide) (by decide)
        (by decide) (by decide)]
    exact weightedStats_dget_wcount _ _ _ _ _ hwc hw
  · exact ⟨qsum_nonneg _ (fun w hw' => (hb w hw').1),
      qsum_le_length _ (fun w hw' => (hb w hw').2)⟩

/-- C6 (amended): outside categorical mode (whose caller-supplied labels
can shadow the `'min'`/`'max'` entries), the reported `range` of a
non-empty feature equals `max − min` over the surviving values — whether
the `min`/`max` entries are reused from the result set or the extremes are
computed fresh, the value is the same. -/
theorem C6_range_equals_max_minus_min (stats : List Stat) (run_count : Bool)
    (cmap : Option (List (Q × String))) (masked : Masked)
    (compressed : List Q) (pct : Option PC) (fs1 fs : Dict)
    (hr : Stat.range ∈ stats)
    (hmin1 : dget fs1 (.str "min") = none)
    (hmax1 : dget fs1 (.str "max") = none)
    (h : popStats stats run_count false cmap masked compressed pct fs1 =
      .ok fs) :
    dget fs (.str "range") =
      some (.vfloat (fmax compressed - fmin compressed)) := by
  obtain ⟨fsW, fsR, hw, hrg, hfs⟩ :=
    popStats_ok_elim _ _ _ _ _ _ _ _ _ h
  rw [catStats_false] at hw
  have hminW : dget fsW (.str "min") = none := by
    rw [weightedStats_dget_other _ _ _ _ _ _ hw (by decide) (by decide)
      (by decide)]
    exact hmin1
  have hmaxW : dget fsW (.str "max") = none := by
    rw [weightedStats_dget_other _ _ _ _ _ _ hw (by decide) (by decide)
      (by decide)]
    exact hmax1
  have hminS : dget (scalarStats stats compressed (histogram compressed) fsW)
        (.str "min") = none ∨
      dget (scalarStats stats compressed (histogram compressed) fsW)
        (.str "min") = some (.vfloat (fmin compressed)) := by
    rw [scalarStats_dget_min]
    by_cases hm : Stat.min ∈ stats
    · right; rw [if_pos hm]
    · left; rw [if_neg hm]; exact hminW
  have hmaxS : dget (scalarStats stats compressed (histogram compressed) fsW)
        (.str "max") = none ∨
      dget (scalarStats stats compressed (histogram compressed) fsW)
        (.str "max") = some (.vfloat (fmax compressed)) := by
    rw [scalarStats_dget_max]
    by_cases hm : Stat.max ∈ stats
    · right; rw [if_pos hm]
    · left; rw [if_neg hm]; exact hmaxW
  rw [rangeStat_eq_of stats compressed _ hr hminS hmaxS] at hrg
  injection hrg with hfsR
  rw [hfs, percStats_dget_str, ← hfsR, dget_dset_same]

/-! ### Evidence for C4, C5, C6 at concrete inputs

The kernel evaluates the pipeline on the fixtures; the rational arithmetic
of core is temporarily made transparent for these closed computations. -/

section ConcreteEvidence

attribute [local semireducible] Rat.add Rat.sub Rat.mul Rat.inv

/-- C4: with a weighted statistic requested, a first-feature Point does not
merely disable weighted statistics for itself — referencing the
never-assigned `pctcover` raises `NameError` and aborts the entire run
with no output; and when a previous feature did bind `pctcover`, the Point
feature's record does contain `weighted_mean`, computed from the previous
feature's coverage array (the cleared `weights` flag also persists to all
later features instead of applying to the Point only). -/
theorem C4_point_weighted_stats_misbehave :
    (gen_zonal_stats envA cfgWM [featPoint]).err = some .nameError ∧
    (gen_zonal_stats envA cfgWM [featPoint]).out = [] ∧
    (gen_zonal_stats envA cfgWM [featPoly, featPoint]).out =
      [.rstats [(.str "weighted_mean", .vfloat (5/3)),
        (.str "count", .vint 3)],
       .rstats [(.str "weighted_mean", .vfloat (5/3)),
        (.str "count", .vint 3)]] := by
  refine ⟨by decide, by decide, by decide⟩

/-- C5 counterexample: the weight on the excluded nodata cell still counts
— `weighted_count` is 2 while `count` is 1, refuting
`weighted_count ≤ count`. -/
theorem C5_counterexample_weight_on_excluded_cells :
    (gen_zonal_stats envB cfgWC [featPoly]).out =
      [.rstats [(.str "weighted_count", .vfloat 2), (.str "count", .vint 1)]] ∧
    ¬((2 : Q) ≤ (1 : Q)) := by
  exact ⟨by decide, by decide⟩

/-- C6 counterexample: a categorical label `"min"` shadows the `min`
entry, so the reported `range` is 1 although `max − min` over the same
surviving values [1, 1, 3] is 2. -/
theorem C6_counterexample_categorical_min_collision :
    (gen_zonal_stats envA cfgCat [featPoly]).out =
      [.rstats [(.str "min", .vint 2), (.num 3, .vint 1),
        (.str "range", .vfloat 1)]] ∧
    fmax [1, 1, 3] - fmin [1, 1, 3] = (2 : Q) ∧ (1 : Q) ≠ (2 : Q) := by
  refine ⟨by decide, by decide, by decide⟩

/-! ### Witnesses: each main theorem applied at a concrete input -/

theorem C1_memory_error_skips_only_that_feature_witness :
    featPoly.properties = some [(.str "name", .vprop 5)] ∧
    memSkipCause envSkip false ⟨false, none⟩ featPoly = true ∧
    (runFeatures envSkip cfg0 DEFAULT_STATS false false ⟨false, none⟩
      [featPoly, featPoly2]).out =
      (runFeatures envSkip cfg0 DEFAULT_STATS false false ⟨false, none⟩
        [featPoly2]).out :=
  ⟨rfl, by decide,
    (C1_memory_error_skips_only_that_feature envSkip cfg0 DEFAULT_STATS
      false false ⟨false, none⟩ featPoly [(.str "name", .vprop 5)]
      [featPoly2] rfl (by decide)).2.1⟩

theorem C2_empty_compressed_gives_none_except_count_zero_witness :
    compressM (buildMasked winND (rvFull 1 2)) = [] ∧
    (processFeature envND cfg0 [Stat.count, Stat.min] false false
      ⟨false, none⟩ featPoly).res =
      .yielded (.rstats (emptyStats [Stat.count, Stat.min])) featPoly
        ⟨false, none⟩ ∧
    dget (emptyStats [Stat.count, Stat.min]) Stat.count.key =
      some (Val.vint 0) :=
  have h := C2_empty_compressed_gives_none_except_count_zero envND cfg0
    [Stat.count, Stat.min] false false ⟨false, none⟩ featPoly winND
    (rvFull 1 2) rfl rfl rfl rfl rfl rfl rfl rfl rfl rfl (by decide)
    (fun nm hmem => by simp at hmem)
  ⟨by decide, h.1, by simpa using h.2 Stat.count (by simp)⟩

theorem C3_weights_force_all_touched_witness :
    check_stats cfgWC.stats cfgWC.categorical =
      .ok ([Stat.weighted_count, Stat.count], false, true) ∧
    ((⟨GeomType.polygon, 1⟩ : Geom), true).2 = true :=
  ⟨by decide,
    C3_weights_force_all_touched envA cfgWC [featPoly, featPoint]
      [Stat.weighted_count, Stat.count] false (by decide)
      ((⟨GeomType.polygon, 1⟩ : Geom), true) (by decide)⟩

theorem C5_weighted_count_sums_whole_coverage_witness :
    popStats [Stat.weighted_count, Stat.count] false false none
      (buildMasked win12 (rvFull 1 2)) [5] (some (pcOnes 1 2)) [] =
      .ok [(.str "weighted_count", .vfloat 2), (.str "count", .vint 1)] ∧
    dget [(.str "weighted_count", .vfloat 2), (.str "count", .vint 1)]
      (.str "weighted_count") = some (.vfloat (qsum (pcOnes 1 2).data)) :=
  ⟨by decide,
    (C5_weighted_count_sums_whole_coverage
      [Stat.weighted_count, Stat.count] false false none
      (buildMasked win12 (rvFull 1 2)) [5] (pcOnes 1 2) []
      [(.str "weighted_count", .vfloat 2), (.str "count", .vint 1)]
      (by decide) (by decide) (by decide)).1⟩

theorem C6_range_equals_max_minus_min_witness :
    popStats [Stat.range] false false none (buildMasked win13 (rvFull 1 3))
      [1, 1, 3] none [] = .ok [(.str "range", .vfloat 2)] ∧
    dget [(.str "range", .vfloat 2)] (.str "range") =
      some (.vfloat (fmax [1, 1, 3] - fmin [1, 1, 3])) :=
  ⟨by decide,
    C6_range_equals_max_minus_min [Stat.range] false none
      (buildMasked win13 (rvFull 1 3)) [1, 1, 3] none []
      [(.str "range", .vfloat 2)] (by decide) rfl rfl (by decide)⟩

theorem C7_invalid_stats_fail_before_any_work_witness :
    invalidSelection [Stat.other "bogus"] ∧
    (gen_zonal_stats envA cfgBogus []).opened = false :=
  have h := C7_invalid_stats_fail_before_any_work envA cfgBogus []
    [Stat.other "bogus"] rfl (Or.inl ⟨"bogus", by simp⟩)
  ⟨Or.inl ⟨"bogus", by simp⟩, by
    obtain ⟨e, he, hgen⟩ := h
    rw [hgen]⟩

theorem C8_shape_mismatch_is_fatal_witness :
    ((⟨5, 5, List.replicate 25 true⟩ : RVArray).rows,
      (⟨5, 5, List.replicate 25 true⟩ : RVArray).cols) ≠
      (win13.rows, win13.cols) ∧
    (processFeature envBadShape cfg0 DEFAULT_STATS false false ⟨false, none⟩
      featPoly).res = .fatal .assertionError :=
  ⟨by decide,
    (C8_shape_mismatch_is_fatal envBadShape cfg0 DEFAULT_STATS false false
      ⟨false, none⟩ featPoly win13 ⟨5, 5, List.replicate 25 true⟩ [] rfl rfl
      (by decide)).1⟩

theorem C9_add_stats_masked_and_errors_propagate_witness :
    maskColumns (buildMasked win12 (rvFull 1 2)) = .ok (.vint 1) ∧
    finalize cfgAddOk featPoly (buildMasked win12 (rvFull 1 2)) 3 (some 9)
      [] ⟨false, none⟩ [] [] =
      ⟨.yielded (.rstats (dset [] (.str "masked_cells") (.vint 1))) featPoly
        ⟨false, none⟩, [], []⟩ :=
  ⟨by decide,
    ((C9_add_stats_masked_and_errors_propagate cfgAddOk "masked_cells"
      maskColumns rfl rfl rfl rfl rfl).1 featPoly
      (buildMasked win12 (rvFull 1 2)) 3 (some 9) [] ⟨false, none⟩ [] []
      (.vint 1) (by decide)).1⟩

theorem C10_output_merging_mutates_feature_witness :
    ([(.str "count", .vint 1)] : Dict) ≠ [] ∧
    emitResult cfgGeo featPoly [(.str "count", .vint 1)] ⟨false, none⟩ =
      .yielded
        (.rfeat ⟨featPoly.geometry,
          some (mergeD [(.str "name", .vprop 5)] [(.str "count", .vint 1)])⟩)
        ⟨featPoly.geometry,
          some (mergeD [(.str "name", .vprop 5)] [(.str "count", .vint 1)])⟩
        ⟨false, none⟩ :=
  ⟨by decide,
    (C10_output_merging_mutates_feature cfgGeo featPoly
      [(.str "count", .vint 1)] ⟨false, none⟩ (by decide)).1 rfl⟩

end ConcreteEvidence

end ZonalStats
